import Mathlib

/-!
Verification development for the `password-worker` repository.

The repository bridges async callers to a blocking compute pool for password
hashing.  Its own code (src/src/worker.rs, src/src/hasher.rs,
src/src/hasher_impls/{bcrypt,argon2id}.rs) is embedded below.  The external
crates it calls (`bcrypt`, `rust-argon2`, `rayon`, `crossbeam-channel`,
`tokio::sync::oneshot`) are not part of the repository; they are modelled from
the specification's description of them as opaque capabilities, with each such
model carrying a doc comment saying exactly what is modelled.
-/

/-- Byte strings: passwords, salts and raw digests are sequences of bytes. -/
abbrev Bytes := List Nat

/-- The argon2 variant selector of the external `rust-argon2` crate
(`argon2::Variant`). -/
inductive ArgonVariant where
  | Argon2d
  | Argon2i
  | Argon2id
deriving DecidableEq, Repr

/-- The argon2 version selector of the external `rust-argon2` crate
(`argon2::Version`); `Version13` is the 0x13 revision. -/
inductive ArgonVersion where
  | Version10
  | Version13
deriving DecidableEq, Repr

/-- The parameter block of the external `rust-argon2` crate
(`argon2::Config`), restricted to the fields the repository touches. -/
structure ArgonParams where
  variant : ArgonVariant
  version : ArgonVersion
  mem_cost : Nat
  time_cost : Nat
  lanes : Nat
  hash_length : Nat
deriving DecidableEq, Repr

/-- Modelled from the spec: the external bcrypt primitive's raw digest.  The
spec treats the hashing math as an opaque capability that must make `verify`
"report a boolean match" with no deterministic false positives, so the digest
is idealized as an injective record of the hashing inputs. -/
structure BcryptDigest where
  cost : Nat
  salt : Bytes
  data : Bytes
deriving DecidableEq, Repr

/-- Modelled from the spec: the external argon2 primitive's raw digest,
idealized (like `BcryptDigest`) as an injective record of the parameter
block, salt and input bytes that produced it. -/
structure ArgonDigest where
  params : ArgonParams
  salt : Bytes
  data : Bytes
deriving DecidableEq, Repr

/-- Modelled from the spec: the space of strings flowing through the worker.
The worker treats encoded hashes as opaque strings produced by the external
primitives, so a string is either a well-formed bcrypt encoding (which
records its cost and salt alongside the digest, as the `$2b$cost$saltdigest`
format does), a well-formed argon2 `$argon2id$...` encoding (which records
the parameter block and salt), or arbitrary other text (kept as raw bytes)
such as a truncated or corrupted hash. -/
inductive Str where
  | bcryptEnc (cost : Nat) (salt : Bytes) (digest : BcryptDigest)
  | argonEnc (params : ArgonParams) (salt : Bytes) (digest : ArgonDigest)
  | plain (raw : Bytes)
deriving DecidableEq, Repr

/-- Does the string parse as a bcrypt encoding? -/
def Str.parsesBcrypt : Str → Bool
  | .bcryptEnc .. => true
  | _ => false

/-- Does the string parse as an argon2 encoding? -/
def Str.parsesArgon : Str → Bool
  | .argonEnc .. => true
  | _ => false

/-- Errors of the external `bcrypt` crate, restricted to the cases the model
can produce: a cost outside the valid range, and an unparsable hash string. -/
inductive BcryptError where
  | CostError (cost : Nat)
  | InvalidHash
deriving DecidableEq, Repr

/-- Modelled from the spec: `bcrypt::hash` of the external `bcrypt` crate
(its source is not in this repository).  Given input bytes and a cost it
produces an encoded hash string or an error; the cost must lie in the
documented 4..=31 range.  bcrypt generates its salt internally from an RNG;
that internal randomness is externalized as the explicit `rngSalt` argument
so the model stays a pure function. -/
def bcrypt.hash (data : Bytes) (cost : Nat) (rngSalt : Bytes) : Except BcryptError Str :=
  if 4 ≤ cost ∧ cost ≤ 31 then
    .ok (.bcryptEnc cost rngSalt ⟨cost, rngSalt, data⟩)
  else
    .error (.CostError cost)

/-- Modelled from the spec: `bcrypt::verify` of the external `bcrypt` crate.
It parses the encoded hash, recomputes the digest from the recovered cost and
salt together with the candidate bytes, and reports whether the digests
match; an unparsable string is an error, not a panic. -/
def bcrypt.verify (data : Bytes) (h : Str) : Except BcryptError Bool :=
  match h with
  | .bcryptEnc cost salt digest => .ok (decide (digest = ⟨cost, salt, data⟩))
  | _ => .error .InvalidHash

/-- Errors of the external `rust-argon2` crate, restricted to the cases the
model can produce: parameter-validation failures and an undecodable hash. -/
inductive ArgonError where
  | SaltTooShort
  | TimeTooSmall
  | MemoryTooLittle
  | OutputTooShort
  | DecodingFail
deriving DecidableEq, Repr

/-- The `rust-argon2` crate's `Config::default()` values for the fields the
repository touches: variant Argon2i, version 0x13, mem_cost 4096,
time_cost 3, lanes 1, hash_length 32.  The repository overrides variant and
version explicitly, so only the untouched `lanes` default is ever observable
through its adapter. -/
def ArgonParams.default : ArgonParams :=
  { variant := .Argon2i
    version := .Version13
    mem_cost := 4096
    time_cost := 3
    lanes := 1
    hash_length := 32 }

/-- Modelled from the spec: the parameter validation of the external
`rust-argon2` crate.  The spec names "salt too short" as a configuration
error the primitive rejects (minimum length 8 bytes, per the repository's
own doc comments); the remaining minimums mirror the primitive's documented
lower bounds for time cost, memory cost and output length. -/
def argon2.validateParams (salt : Bytes) (p : ArgonParams) : Option ArgonError :=
  if salt.length < 8 then some .SaltTooShort
  else if p.time_cost < 1 then some .TimeTooSmall
  else if p.mem_cost < 8 then some .MemoryTooLittle
  else if p.hash_length < 4 then some .OutputTooShort
  else none

/-- Modelled from the spec: `argon2::hash_encoded` of the external
`rust-argon2` crate.  Given input bytes, a caller-supplied salt and a
parameter block it validates the parameters and produces an encoded hash
string carrying the parameter block, the salt and the digest, or an error.
It draws no randomness of its own. -/
def argon2.hash_encoded (data : Bytes) (salt : Bytes) (p : ArgonParams) :
    Except ArgonError Str :=
  match argon2.validateParams salt p with
  | some e => .error e
  | none => .ok (.argonEnc p salt ⟨p, salt, data⟩)

/-- Modelled from the spec: `argon2::verify_encoded` of the external
`rust-argon2` crate.  It decodes the encoded hash to recover the parameter
block and salt, recomputes the digest for the candidate bytes under those
recovered parameters, and reports whether the digests match; an undecodable
string is an error, not a panic. -/
def argon2.verify_encoded (h : Str) (data : Bytes) : Except ArgonError Bool :=
  match h with
  | .argonEnc p salt digest => .ok (decide (digest = ⟨p, salt, data⟩))
  | _ => .error .DecodingFail

/-- From src/src/hasher_impls/bcrypt.rs: `BcryptConfig`, the configuration
needed to perform bcrypt hashing — just the cost. -/
structure BcryptConfig where
  cost : Nat
deriving DecidableEq, Repr

/-- From src/src/hasher_impls/bcrypt.rs, `impl Hasher for Bcrypt`:
`fn hash(data, config) = bcrypt::hash(data, config.cost)`.  The `rngSalt`
argument is the externalized internal randomness of the bcrypt primitive. -/
def Bcrypt.hash (data : Bytes) (config : BcryptConfig) (rngSalt : Bytes) :
    Except BcryptError Str :=
  bcrypt.hash data config.cost rngSalt

/-- From src/src/hasher_impls/bcrypt.rs, `impl Hasher for Bcrypt`:
`fn verify(data, hash) = bcrypt::verify(data, hash)`. -/
def Bcrypt.verify (data : Bytes) (h : Str) : Except BcryptError Bool :=
  bcrypt.verify data h

/-- From src/src/hasher_impls/argon2id.rs: `Argon2idConfig`, the
configuration needed to perform argon2id hashing: salt, time cost, memory
cost and output hash length.  (It has no parallelism/lanes field.) -/
structure Argon2idConfig where
  salt : Bytes
  time_cost : Nat
  mem_cost : Nat
  hash_length : Nat
deriving DecidableEq, Repr

/-- From src/src/hasher_impls/argon2id.rs, `impl Default for Argon2idConfig`:
empty salt, time_cost 3, mem_cost 4096, hash_length 32. -/
def Argon2idConfig.default : Argon2idConfig :=
  { salt := [], time_cost := 3, mem_cost := 4096, hash_length := 32 }

/-- From src/src/hasher_impls/argon2id.rs, the body of `Argon2id::hash`: it
starts from `argon2::Config::default()`, changes the variant to Argon2id and
the version to 0x13, and copies `time_cost`, `mem_cost` and `hash_length`
from the caller's `Argon2idConfig`.  Nothing else (in particular not
`lanes`) is copied. -/
def Argon2id.mkArgonConfig (config : Argon2idConfig) : ArgonParams :=
  { ArgonParams.default with
      variant := .Argon2id
      version := .Version13
      time_cost := config.time_cost
      mem_cost := config.mem_cost
      hash_length := config.hash_length }

/-- From src/src/hasher_impls/argon2id.rs, `impl Hasher for Argon2id`:
`fn hash(data, config) = argon2::hash_encoded(data, &config.salt,
&argon_config)` where `argon_config` is built by `mkArgonConfig`. -/
def Argon2id.hash (data : Bytes) (config : Argon2idConfig) : Except ArgonError Str :=
  argon2.hash_encoded data config.salt (Argon2id.mkArgonConfig config)

/-- From src/src/hasher_impls/argon2id.rs, `impl Hasher for Argon2id`:
`fn verify(data, hash) = argon2::verify_encoded(hash, data)`. -/
def Argon2id.verify (data : Bytes) (h : Str) : Except ArgonError Bool :=
  argon2.verify_encoded h data

/-- A valid bcrypt configuration: cost in the documented 4..=31 range. -/
def BcryptConfig.Valid (c : BcryptConfig) : Prop :=
  4 ≤ c.cost ∧ c.cost ≤ 31

instance (c : BcryptConfig) : Decidable c.Valid := by
  unfold BcryptConfig.Valid
  infer_instance

/-- A valid argon2id configuration: salt of at least 8 bytes and parameters
at or above the primitive's minimums. -/
def Argon2idConfig.Valid (c : Argon2idConfig) : Prop :=
  8 ≤ c.salt.length ∧ 1 ≤ c.time_cost ∧ 8 ≤ c.mem_cost ∧ 4 ≤ c.hash_length

instance (c : Argon2idConfig) : Decidable c.Valid := by
  unfold Argon2idConfig.Valid
  infer_instance

/-- From src/src/worker.rs: `WorkerCommand<H>`, the tagged union of the two
work requests.  In the source each variant carries a
`tokio::sync::oneshot::Sender` for the response; a oneshot channel's only
observable state at send time is whether its receiver is still alive, so the
sender is modelled by the boolean `receiverAlive` (true while the caller
still awaits the response). -/
inductive WorkerCommand (Config : Type) where
  | Hash (password : Bytes) (config : Config) (receiverAlive : Bool)
  | Verify (password : Bytes) (hashStr : Str) (receiverAlive : Bool)
deriving DecidableEq, Repr

/-- Whether the command's response channel still has a live receiver. -/
def WorkerCommand.alive {Config : Type} : WorkerCommand Config → Bool
  | .Hash _ _ a => a
  | .Verify _ _ a => a

/-- Modelled from the spec: the build error of the external `rayon`
thread-pool builder (its source is not in this repository); the spec calls
this the fatal, surfaced provisioning failure, e.g. resource exhaustion. -/
inductive ThreadPoolBuildError where
  | spawnFailed
deriving DecidableEq, Repr

/-- Modelled from the spec: the external `rayon` thread pool, reduced to its
one observable construction property, the number of threads provisioned. -/
structure ThreadPool where
  numThreads : Nat
deriving DecidableEq, Repr

/-- Modelled from the spec: `rayon::ThreadPoolBuilder::new().num_threads(n)
.build()` (the builder's source is not in this repository).  The spec treats
pool construction as fallible provisioning, abstracted here by `spawnOk`;
rayon's documented behaviour for `num_threads(0)` is to fall back to the
default thread count rather than fail, which the model reflects via the
`defaultThreads` argument. -/
def ThreadPoolBuilder.build (numThreads defaultThreads : Nat) (spawnOk : Bool) :
    Except ThreadPoolBuildError ThreadPool :=
  if spawnOk then
    .ok ⟨if numThreads = 0 then defaultThreads else numThreads⟩
  else
    .error .spawnFailed

/-- From src/src/worker.rs: `PasswordWorkerError<H>`, the worker error type:
a wrapped hashing-algorithm error, a failed enqueue (the command queue's
receiver is gone; carries the unsent command), a failed response receive
(the response channel's sender was dropped without a send), or a thread-pool
build error. -/
inductive PasswordWorkerError (Config E : Type) where
  | Hashing (e : E)
  | ChannelSend (cmd : WorkerCommand Config)
  | ChannelRecv
  | ThreadPool (e : ThreadPoolBuildError)
deriving DecidableEq, Repr

instance {ε α : Type} [DecidableEq ε] [DecidableEq α] : DecidableEq (Except ε α) :=
  fun x y =>
    match x, y with
    | .ok a, .ok b => if h : a = b then .isTrue (by simp [h]) else .isFalse (by simp [h])
    | .error a, .error b => if h : a = b then .isTrue (by simp [h]) else .isFalse (by simp [h])
    | .ok _, .error _ => .isFalse (by simp)
    | .error _, .ok _ => .isFalse (by simp)

/-- A value sent on some command's response channel: a hash result for a
`Hash` command, a verify result for a `Verify` command. -/
inductive Delivery (Config E : Type) where
  | hashResult (r : Except (PasswordWorkerError Config E) Str)
  | verifyResult (r : Except (PasswordWorkerError Config E) Bool)
deriving DecidableEq, Repr

/-- From src/src/worker.rs lines 71-82, the body of one dispatch-loop
iteration: run the hashing capability's `hash`/`verify` on the thread pool
(`thread_pool.install`), wrap any algorithm error with
`PasswordWorkerError::Hashing` (`result.map_err(PasswordWorkerError::Hashing)`),
and produce the value handed to `result_sender.send`. -/
def step {Config E : Type} (hashFn : Bytes → Config → Except E Str)
    (verifyFn : Bytes → Str → Except E Bool) :
    WorkerCommand Config → Delivery Config E
  | .Hash pw cfg _ => .hashResult (Except.mapError PasswordWorkerError.Hashing (hashFn pw cfg))
  | .Verify pw h _ => .verifyResult (Except.mapError PasswordWorkerError.Hashing (verifyFn pw h))

/-- From src/src/worker.rs lines 68-86, the dispatch loop run over the whole
sequence of commands that will ever arrive on the queue, recording for each
command the list of values sent on its response channel.  Each dequeued
command gets exactly one send (`result_sender.send(...)`); `.ok()?` makes
the loop return early when that send fails (receiver gone), so every command
behind it is never dequeued and gets no send at all. -/
def loopSends {Config E : Type} (hashFn : Bytes → Config → Except E Str)
    (verifyFn : Bytes → Str → Except E Bool) :
    List (WorkerCommand Config) → List (List (Delivery Config E))
  | [] => []
  | c :: rest =>
    [step hashFn verifyFn c] ::
      (if c.alive then loopSends hashFn verifyFn rest
       else rest.map fun _ => [])

/-- Command `i` is dequeued by the loop exactly when every earlier command's
send succeeded, i.e. every earlier receiver was still alive. -/
def dequeued {Config : Type} (cmds : List (WorkerCommand Config)) (i : Nat) : Bool :=
  (cmds.take i).all WorkerCommand.alive

/-- What a still-waiting caller's `rx.await` resolves to, as a function of
the values sent on its response channel: exactly one sent value is received
as that value; if the sender is dropped with no send, the await yields a
receive failure (`oneshot::error::RecvError`). -/
inductive CallerView (Config E : Type) where
  | value (d : Delivery Config E)
  | recvFailure
deriving DecidableEq, Repr

/-- Resolve a send list into the caller's view of its response channel. -/
def callerView {Config E : Type} : List (Delivery Config E) → CallerView Config E
  | [d] => .value d
  | _ => .recvFailure

/-- From src/src/worker.rs: the `PasswordWorker<H>` handle, which owns only
the sending endpoint of the command queue. -/
structure PasswordWorker (Config : Type) where
  senderConnected : Bool
deriving DecidableEq, Repr

/-- From src/src/worker.rs lines 63-89, `PasswordWorker::new(max_threads)`:
create the unbounded command channel, build the rayon pool with
`num_threads(max_threads)` (propagating a build failure via `?` as the
`ThreadPool` error variant), spawn the dispatch-loop thread, and return the
handle.  The returned pool records what the spawned loop was provisioned
with. -/
def PasswordWorker.new (Config E : Type) (maxThreads defaultThreads : Nat)
    (spawnOk : Bool) :
    Except (PasswordWorkerError Config E) (PasswordWorker Config × ThreadPool) :=
  match ThreadPoolBuilder.build maxThreads defaultThreads spawnOk with
  | .error e => .error (.ThreadPool e)
  | .ok pool => .ok (⟨true⟩, pool)

/-- From src/src/worker.rs lines 110-121, `PasswordWorker::hash`: create a
oneshot channel, enqueue a `Hash` command (`self.sender.send(...)?` — the
send fails exactly when the queue's receiver, held by the dispatch loop, is
gone, modelled by `loopAlive`), then `rx.await?`.  `resp` is what arrives on
the oneshot channel: `none` if the loop died without sending, `some r` if
the loop sent `r`. -/
def PasswordWorker.hashOp {Config E : Type} (loopAlive : Bool)
    (resp : Option (Except (PasswordWorkerError Config E) Str))
    (pw : Bytes) (cfg : Config) : Except (PasswordWorkerError Config E) Str :=
  if loopAlive then
    match resp with
    | none => .error .ChannelRecv
    | some r => r
  else
    .error (.ChannelSend (.Hash pw cfg true))

/-- From src/src/worker.rs lines 143-154, `PasswordWorker::verify`:
symmetric to `PasswordWorker.hashOp` with a `Verify` command. -/
def PasswordWorker.verifyOp {Config E : Type} (loopAlive : Bool)
    (resp : Option (Except (PasswordWorkerError Config E) Bool))
    (pw : Bytes) (h : Str) : Except (PasswordWorkerError Config E) Bool :=
  if loopAlive then
    match resp with
    | none => .error .ChannelRecv
    | some r => r
  else
    .error (.ChannelSend (.Verify pw h true))

theorem loopSends_length {Config E : Type} (hF : Bytes → Config → Except E Str)
    (vF : Bytes → Str → Except E Bool) (cmds : List (WorkerCommand Config)) :
    (loopSends hF vF cmds).length = cmds.length := by
  induction cmds with
  | nil => rfl
  | cons c rest ih =>
    by_cases h : c.alive = true <;> simp [loopSends, h, ih]

theorem dequeued_zero {Config : Type} (cmds : List (WorkerCommand Config)) :
    dequeued cmds 0 = true := by
  simp [dequeued]

theorem dequeued_cons_succ {Config : Type} (c : WorkerCommand Config)
    (rest : List (WorkerCommand Config)) (i : Nat) :
    dequeued (c :: rest) (i + 1) = (c.alive && dequeued rest i) := by
  simp [dequeued]

theorem getD_map_const_nil {α β : Type} (l : List β) (n : Nat) :
    (l.map fun _ => ([] : List α)).getD n [] = [] := by
  induction l generalizing n with
  | nil => simp
  | cons b t ih => cases n <;> simp [ih]

theorem loopSends_getD_dequeued {Config E : Type} (hF : Bytes → Config → Except E Str)
    (vF : Bytes → Str → Except E Bool) (cmds : List (WorkerCommand Config))
    (i : Nat) (hi : i < cmds.length) (hdq : dequeued cmds i = true) :
    (loopSends hF vF cmds).getD i [] = [step hF vF (cmds.get ⟨i, hi⟩)] := by
  induction cmds generalizing i with
  | nil => exact absurd hi (by simp)
  | cons c rest ih =>
    cases i with
    | zero => by_cases h : c.alive = true <;> simp [loopSends, h]
    | succ n =>
      have hn : n < rest.length := by simpa using hi
      rw [dequeued_cons_succ] at hdq
      simp only [Bool.and_eq_true] at hdq
      obtain ⟨hal, hrest⟩ := hdq
      have hstep : loopSends hF vF (c :: rest) = [step hF vF c] :: loopSends hF vF rest := by
        simp [loopSends, hal]
      rw [hstep, List.getD_cons_succ, ih n hn hrest]
      rfl

theorem loopSends_getD_dead {Config E : Type} (hF : Bytes → Config → Except E Str)
    (vF : Bytes → Str → Except E Bool) (cmds : List (WorkerCommand Config))
    (i : Nat) (hdq : dequeued cmds i = false) :
    (loopSends hF vF cmds).getD i [] = [] := by
  induction cmds generalizing i with
  | nil => simp [dequeued] at hdq
  | cons c rest ih =>
    cases i with
    | zero => rw [dequeued_zero] at hdq; exact absurd hdq (by simp)
    | succ n =>
      rw [dequeued_cons_succ] at hdq
      by_cases hal : c.alive = true
      · have hrest : dequeued rest n = false := by simpa [hal] using hdq
        have hstep : loopSends hF vF (c :: rest) = [step hF vF c] :: loopSends hF vF rest := by
          simp [loopSends, hal]
        rw [hstep, List.getD_cons_succ]
        exact ih n hrest
      · have hal' : c.alive = false := by simpa using hal
        have hstep : loopSends hF vF (c :: rest) =
            [step hF vF c] :: (rest.map fun _ => []) := by
          simp [loopSends, hal']
        rw [hstep, List.getD_cons_succ]
        exact getD_map_const_nil rest n

theorem alive_of_dequeued {Config : Type} :
    ∀ (cmds : List (WorkerCommand Config)) (i j : Nat),
      dequeued cmds j = true → i < j → (hi : i < cmds.length) →
      (cmds.get ⟨i, hi⟩).alive = true := by
  intro cmds
  induction cmds with
  | nil => intro i j _ _ hi; exact absurd hi (by simp)
  | cons c rest ih =>
    intro i j hdq hij hi
    cases j with
    | zero => exact absurd hij (by omega)
    | succ m =>
      rw [dequeued_cons_succ] at hdq
      simp only [Bool.and_eq_true] at hdq
      obtain ⟨hal, hrest⟩ := hdq
      cases i with
      | zero => exact hal
      | succ n =>
        have hn : n < rest.length := by simpa using hi
        exact ih n m hrest (by omega) hn

theorem argon2_valid_of_config {ac : Argon2idConfig} (hac : ac.Valid) :
    argon2.validateParams ac.salt (Argon2id.mkArgonConfig ac) = none := by
  obtain ⟨h1, h2, h3, h4⟩ := hac
  have e1 : (Argon2id.mkArgonConfig ac).time_cost = ac.time_cost := rfl
  have e2 : (Argon2id.mkArgonConfig ac).mem_cost = ac.mem_cost := rfl
  have e3 : (Argon2id.mkArgonConfig ac).hash_length = ac.hash_length := rfl
  unfold argon2.validateParams
  rw [e1, e2, e3, if_neg (by omega), if_neg (by omega), if_neg (by omega),
    if_neg (by omega)]

/-- C1: for every password and every valid configuration, verifying the
password against the string produced by hashing it under that configuration
succeeds and returns Ok(true), for both the bcrypt and the argon2id
implementations. -/
theorem verify_of_hash_roundtrip (pw rngSalt : Bytes) (bc : BcryptConfig)
    (ac : Argon2idConfig) (hbc : bc.Valid) (hac : ac.Valid) :
    (∃ h, Bcrypt.hash pw bc rngSalt = .ok h ∧ Bcrypt.verify pw h = .ok true) ∧
    (∃ h, Argon2id.hash pw ac = .ok h ∧ Argon2id.verify pw h = .ok true) := by
  constructor
  · refine ⟨.bcryptEnc bc.cost rngSalt ⟨bc.cost, rngSalt, pw⟩, ?_, ?_⟩
    · simp [Bcrypt.hash, bcrypt.hash, hbc.1, hbc.2]
    · simp [Bcrypt.verify, bcrypt.verify]
  · refine ⟨.argonEnc (Argon2id.mkArgonConfig ac) ac.salt
      ⟨Argon2id.mkArgonConfig ac, ac.salt, pw⟩, ?_, ?_⟩
    · simp [Argon2id.hash, argon2.hash_encoded, argon2_valid_of_config hac]
    · simp [Argon2id.verify, argon2.verify_encoded]

/-- C1 witness: the round trip at the concrete password "hi" (bytes), bcrypt
cost 4 with a concrete internal salt, and a valid argon2id configuration. -/
theorem verify_of_hash_roundtrip_witness :
    (∃ h, Bcrypt.hash [104, 105] ⟨4⟩ [0, 1, 2, 3] = .ok h ∧
      Bcrypt.verify [104, 105] h = .ok true) ∧
    (∃ h, Argon2id.hash [104, 105] ⟨[0, 1, 2, 3, 4, 5, 6, 7], 1, 8, 4⟩ = .ok h ∧
      Argon2id.verify [104, 105] h = .ok true) :=
  verify_of_hash_roundtrip [104, 105] [0, 1, 2, 3] ⟨4⟩
    ⟨[0, 1, 2, 3, 4, 5, 6, 7], 1, 8, 4⟩ (by decide) (by decide)

/-- C5: for distinct passwords P and Q and every valid configuration,
verifying Q against the string produced by hashing P returns Ok(false), for
both implementations. -/
theorem verify_wrong_password_false (p q rngSalt : Bytes) (bc : BcryptConfig)
    (ac : Argon2idConfig) (hpq : p ≠ q) (hbc : bc.Valid) (hac : ac.Valid) :
    (∃ h, Bcrypt.hash p bc rngSalt = .ok h ∧ Bcrypt.verify q h = .ok false) ∧
    (∃ h, Argon2id.hash p ac = .ok h ∧ Argon2id.verify q h = .ok false) := by
  constructor
  · refine ⟨.bcryptEnc bc.cost rngSalt ⟨bc.cost, rngSalt, p⟩, ?_, ?_⟩
    · simp [Bcrypt.hash, bcrypt.hash, hbc.1, hbc.2]
    · have hne : (⟨bc.cost, rngSalt, p⟩ : BcryptDigest) ≠ ⟨bc.cost, rngSalt, q⟩ := by
        simp only [ne_eq, BcryptDigest.mk.injEq, not_and]
        intro _ _
        exact hpq
      simp [Bcrypt.verify, bcrypt.verify, hne]
  · refine ⟨.argonEnc (Argon2id.mkArgonConfig ac) ac.salt
      ⟨Argon2id.mkArgonConfig ac, ac.salt, p⟩, ?_, ?_⟩
    · simp [Argon2id.hash, argon2.hash_encoded, argon2_valid_of_config hac]
    · have hne : (⟨Argon2id.mkArgonConfig ac, ac.salt, p⟩ : ArgonDigest) ≠
          ⟨Argon2id.mkArgonConfig ac, ac.salt, q⟩ := by
        simp only [ne_eq, ArgonDigest.mk.injEq, not_and]
        intro _ _
        exact hpq
      simp [Argon2id.verify, argon2.verify_encoded, hne]

/-- C5 witness: the wrong password "hj" is rejected against the hash of "hi"
under the same concrete valid configurations as the C1 witness. -/
theorem verify_wrong_password_false_witness :
    (∃ h, Bcrypt.hash [104, 105] ⟨4⟩ [0, 1, 2, 3] = .ok h ∧
      Bcrypt.verify [104, 106] h = .ok false) ∧
    (∃ h, Argon2id.hash [104, 105] ⟨[0, 1, 2, 3, 4, 5, 6, 7], 1, 8, 4⟩ = .ok h ∧
      Argon2id.verify [104, 106] h = .ok false) :=
  verify_wrong_password_false [104, 105] [104, 106] [0, 1, 2, 3] ⟨4⟩
    ⟨[0, 1, 2, 3, 4, 5, 6, 7], 1, 8, 4⟩ (by decide) (by decide) (by decide)

/-- C10: `Argon2id::hash` is deterministic — byte-equal input data and
field-equal configuration values produce equal Result values, because the
adapter passes no randomness to the primitive (the salt is caller-supplied)
— while the bcrypt implementation, whose salt comes from its internal RNG,
produces different hashes when that internal salt differs. -/
theorem argon2id_hash_deterministic (d₁ d₂ : Bytes) (c₁ c₂ : Argon2idConfig)
    (hd : d₁ = d₂) (hs : c₁.salt = c₂.salt) (ht : c₁.time_cost = c₂.time_cost)
    (hm : c₁.mem_cost = c₂.mem_cost) (hl : c₁.hash_length = c₂.hash_length) :
    Argon2id.hash d₁ c₁ = Argon2id.hash d₂ c₂ ∧
    ∃ (pw s₁ s₂ : Bytes) (bc : BcryptConfig),
      s₁ ≠ s₂ ∧ Bcrypt.hash pw bc s₁ ≠ Bcrypt.hash pw bc s₂ := by
  constructor
  · have hc : c₁ = c₂ := by
      cases c₁
      cases c₂
      simp_all
    rw [hd, hc]
  · exact ⟨[], [0], [1], ⟨4⟩, by decide, by decide⟩

/-- C10 witness: determinism applied at a concrete password and two
syntactically different but field-equal configurations. -/
theorem argon2id_hash_deterministic_witness :
    Argon2id.hash [104] ⟨[0, 1, 2, 3, 4, 5, 6, 7], 3, 4096, 32⟩ =
      Argon2id.hash [104] ⟨[0, 1, 2, 3, 4, 5, 6, 7], 2 + 1, 4095 + 1, 32⟩ ∧
    ∃ (pw s₁ s₂ : Bytes) (bc : BcryptConfig),
      s₁ ≠ s₂ ∧ Bcrypt.hash pw bc s₁ ≠ Bcrypt.hash pw bc s₂ :=
  argon2id_hash_deterministic [104] [104]
    ⟨[0, 1, 2, 3, 4, 5, 6, 7], 3, 4096, 32⟩
    ⟨[0, 1, 2, 3, 4, 5, 6, 7], 2 + 1, 4095 + 1, 32⟩ rfl rfl (by decide) (by decide) rfl

/-- C8 counterexample: `Argon2idConfig` has no parallelism/lanes field, and
the parameter block `Argon2id::hash` hands to the primitive carries the
primitive's default `lanes = 1` no matter which configuration is supplied —
shown here at two configurations that disagree on every field — so
"configurable parallelism lanes, passed through to the underlying
primitive" is false. -/
theorem argon2id_lanes_not_configurable :
    (Argon2id.mkArgonConfig ⟨[0, 1, 2, 3, 4, 5, 6, 7], 7, 65536, 64⟩).lanes = 1 ∧
    (Argon2id.mkArgonConfig ⟨[9, 9, 9, 9, 9, 9, 9, 9, 9], 1, 8, 4⟩).lanes = 1 ∧
    (⟨[0, 1, 2, 3, 4, 5, 6, 7], 7, 65536, 64⟩ : Argon2idConfig) ≠
      ⟨[9, 9, 9, 9, 9, 9, 9, 9, 9], 1, 8, 4⟩ :=
  ⟨rfl, rfl, by decide⟩

/-- C8 amended: the argon2id implementation hashes with the caller-supplied
salt and exposes configurable time cost, memory cost and output length, each
passed through to the primitive's parameter block (with variant Argon2id and
version 0x13); parallelism lanes are NOT configurable and stay at the
primitive's default of 1.  The bcrypt implementation exposes a configurable
cost and its salt comes from the primitive's internal generation, not from
its configuration. -/
theorem hasher_config_exposure (c : Argon2idConfig) (pw rngSalt : Bytes)
    (b : BcryptConfig) :
    (Argon2id.mkArgonConfig c).time_cost = c.time_cost ∧
    (Argon2id.mkArgonConfig c).mem_cost = c.mem_cost ∧
    (Argon2id.mkArgonConfig c).hash_length = c.hash_length ∧
    (Argon2id.mkArgonConfig c).variant = ArgonVariant.Argon2id ∧
    (Argon2id.mkArgonConfig c).version = ArgonVersion.Version13 ∧
    (Argon2id.mkArgonConfig c).lanes = ArgonParams.default.lanes ∧
    Argon2id.hash pw c = argon2.hash_encoded pw c.salt (Argon2id.mkArgonConfig c) ∧
    Bcrypt.hash pw b rngSalt = bcrypt.hash pw b.cost rngSalt :=
  ⟨rfl, rfl, rfl, rfl, rfl, rfl, rfl, rfl⟩

/-- C4 counterexample: constructing a worker with `max_threads = 0` does not
return a ConstructionError — rayon's builder treats 0 as "use the default
thread count", so `new(0)` succeeds and returns a usable handle backed by a
default-sized pool (8 here stands for the machine's default). -/
theorem new_zero_threads_returns_handle :
    PasswordWorker.new Argon2idConfig ArgonError 0 8 true = .ok (⟨true⟩, ⟨8⟩) := rfl

/-- C4 amended: `new` propagates a thread-pool provisioning failure as the
`ThreadPool` error variant of `PasswordWorkerError`, without panicking or
hanging and without returning a handle; when provisioning succeeds it
returns a usable handle, with `max_threads = 0` giving a pool of the default
thread count rather than an error. -/
theorem new_propagates_pool_build_failure (Config E : Type) (m d : Nat) :
    PasswordWorker.new Config E m d false = .error (.ThreadPool .spawnFailed) ∧
    PasswordWorker.new Config E m d true = .ok (⟨true⟩, ⟨if m = 0 then d else m⟩) := by
  constructor <;> simp [PasswordWorker.new, ThreadPoolBuilder.build]

/-- C2: the dispatch loop's send list has exactly one entry per enqueued
command (no lost or duplicated outcome records); every command it dequeues
gets exactly one value sent on its response channel — never zero, never two
— and a command the loop died before dequeuing gets no send, so its caller's
await resolves with a receive failure. -/
theorem dispatch_exactly_one_response {Config E : Type}
    (hF : Bytes → Config → Except E Str) (vF : Bytes → Str → Except E Bool)
    (cmds : List (WorkerCommand Config)) :
    (loopSends hF vF cmds).length = cmds.length ∧
    ∀ i, (hi : i < cmds.length) →
      (dequeued cmds i = true →
        (loopSends hF vF cmds).getD i [] = [step hF vF (cmds.get ⟨i, hi⟩)]) ∧
      (dequeued cmds i = false →
        (loopSends hF vF cmds).getD i [] = [] ∧
        callerView ((loopSends hF vF cmds).getD i []) = CallerView.recvFailure) := by
  refine ⟨loopSends_length hF vF cmds, fun i hi => ⟨?_, ?_⟩⟩
  · exact loopSends_getD_dequeued hF vF cmds i hi
  · intro hdq
    have h0 := loopSends_getD_dead hF vF cmds i hdq
    rw [h0]
    exact ⟨rfl, rfl⟩

/-- C2 witness: on a concrete two-command queue whose first receiver is dead,
command 0 (dequeued) gets exactly one sent value and command 1 (never
dequeued, the loop having exited) gets none, its caller seeing a receive
failure. -/
theorem dispatch_exactly_one_response_witness :
    ((loopSends Argon2id.hash Argon2id.verify
        [WorkerCommand.Verify [104] (.plain [120]) false,
         WorkerCommand.Hash [104] Argon2idConfig.default true]).getD 1 [] = [] ∧
      callerView ((loopSends Argon2id.hash Argon2id.verify
        [WorkerCommand.Verify [104] (.plain [120]) false,
         WorkerCommand.Hash [104] Argon2idConfig.default true]).getD 1 []) =
        CallerView.recvFailure) :=
  ((dispatch_exactly_one_response Argon2id.hash Argon2id.verify
      [WorkerCommand.Verify [104] (.plain [120]) false,
       WorkerCommand.Hash [104] Argon2idConfig.default true]).2 1 (by decide)).2
    (by decide)

/-- C3 counterexample: a queue with a dead-receiver command followed by a
live command.  The loop sends the first command's (error) result, the send
fails, and `.ok()?` exits the loop: the second command — whose caller is
still waiting — is never processed and receives no send, refuting "the
failed send is silently ignored and the loop continues to process subsequent
commands". -/
theorem failed_send_stops_loop_counterexample :
    loopSends Argon2id.hash Argon2id.verify
        [WorkerCommand.Verify [104] (.plain [120]) false,
         WorkerCommand.Hash [104] Argon2idConfig.default true] =
      [[Delivery.verifyResult (.error (.Hashing ArgonError.DecodingFail))], []] ∧
    (WorkerCommand.Hash ([104] : Bytes) Argon2idConfig.default true).alive = true :=
  ⟨rfl, rfl⟩

/-- C3 amended: a send to an abandoned response channel never crashes the
loop — every command still has a well-defined outcome record — and the
failing command still gets its one send attempt; but the loop then exits
cleanly via the `.ok()?` early return instead of continuing, so every later
command in the queue gets no send at all. -/
theorem failed_send_terminates_loop_cleanly {Config E : Type}
    (hF : Bytes → Config → Except E Str) (vF : Bytes → Str → Except E Bool)
    (cmds : List (WorkerCommand Config)) (i : Nat) (hi : i < cmds.length)
    (hdq : dequeued cmds i = true) (hdead : (cmds.get ⟨i, hi⟩).alive = false) :
    (loopSends hF vF cmds).length = cmds.length ∧
    (loopSends hF vF cmds).getD i [] = [step hF vF (cmds.get ⟨i, hi⟩)] ∧
    ∀ j, i < j → (loopSends hF vF cmds).getD j [] = [] := by
  refine ⟨loopSends_length hF vF cmds,
    loopSends_getD_dequeued hF vF cmds i hi hdq, ?_⟩
  intro j hij
  by_cases hj : j < cmds.length
  · have hfalse : dequeued cmds j = false := by
      cases hc : dequeued cmds j
      · rfl
      · have halive := alive_of_dequeued cmds i j hc hij hi
        rw [hdead] at halive
        exact absurd halive (by simp)
    exact loopSends_getD_dead hF vF cmds j hfalse
  · have hlen : (loopSends hF vF cmds).length ≤ j := by
      rw [loopSends_length]
      omega
    exact List.getD_eq_default _ _ hlen

/-- C3 amended, witness: the concrete two-command queue again; applying the
amended theorem at the dead first command shows the second command gets no
send. -/
theorem failed_send_terminates_loop_cleanly_witness :
    (loopSends Argon2id.hash Argon2id.verify
        [WorkerCommand.Verify [104] (.plain [121]) false,
         WorkerCommand.Hash [105] Argon2idConfig.default true]).getD 1 [] = [] :=
  (failed_send_terminates_loop_cleanly Argon2id.hash Argon2id.verify
      [WorkerCommand.Verify [104] (.plain [121]) false,
       WorkerCommand.Hash [105] Argon2idConfig.default true]
      0 (by decide) (by decide) (by decide)).2.2 1 (by decide)

/-- C6: when the hashing capability's hash or verify call fails with error e,
the dispatch loop wraps exactly that error in the `Hashing` variant and sends
it, once, as the resolved value of the operation — the command's channel
receives exactly the single value `Err(Hashing e)`, so the operation is
never retried. -/
theorem hashing_error_propagated_verbatim {Config E : Type}
    (hF : Bytes → Config → Except E Str) (vF : Bytes → Str → Except E Bool)
    (pw : Bytes) (cfg : Config) (hs : Str) (e eV : E)
    (hHash : hF pw cfg = .error e) (hVerify : vF pw hs = .error eV) :
    step hF vF (.Hash pw cfg true) = .hashResult (.error (.Hashing e)) ∧
    loopSends hF vF [.Hash pw cfg true] = [[.hashResult (.error (.Hashing e))]] ∧
    step hF vF (.Verify pw hs true) = .verifyResult (.error (.Hashing eV)) ∧
    loopSends hF vF [.Verify pw hs true] = [[.verifyResult (.error (.Hashing eV))]] := by
  refine ⟨?_, ?_, ?_, ?_⟩ <;>
    simp [step, loopSends, WorkerCommand.alive, hHash, hVerify, Except.mapError]

/-- C6 witness: a concrete argon2id hash failure (empty salt) and verify
failure (undecodable hash) are each delivered exactly once, wrapped verbatim
in the `Hashing` variant. -/
theorem hashing_error_propagated_verbatim_witness :
    step Argon2id.hash Argon2id.verify
        (.Hash [104] (⟨[], 3, 4096, 32⟩ : Argon2idConfig) true) =
      .hashResult (.error (.Hashing ArgonError.SaltTooShort)) ∧
    loopSends Argon2id.hash Argon2id.verify
        [.Hash [104] (⟨[], 3, 4096, 32⟩ : Argon2idConfig) true] =
      [[.hashResult (.error (.Hashing ArgonError.SaltTooShort))]] ∧
    step Argon2id.hash Argon2id.verify (.Verify [104] (.plain [122]) true) =
      .verifyResult (.error (.Hashing ArgonError.DecodingFail)) ∧
    loopSends Argon2id.hash Argon2id.verify [.Verify [104] (.plain [122]) true] =
      [[.verifyResult (.error (.Hashing ArgonError.DecodingFail))]] :=
  hashing_error_propagated_verbatim Argon2id.hash Argon2id.verify [104]
    ⟨[], 3, 4096, 32⟩ (.plain [122]) ArgonError.SaltTooShort ArgonError.DecodingFail
    rfl rfl

/-- C7: the async hash and verify operations resolve with the queue-closed
(`ChannelSend`) error exactly when the command could not be enqueued because
the dispatch loop is gone; while the loop is alive the enqueue succeeds and
the operation never resolves with `ChannelSend` (whatever the loop sends
back is either the wrapped hashing result or, if the loop died mid-flight,
a `ChannelRecv` failure). -/
theorem queue_closed_error_iff_loop_dead {Config E : Type}
    (hF : Bytes → Config → Except E Str) (vF : Bytes → Str → Except E Bool)
    (loopAlive : Bool) (pw : Bytes) (cfg : Config) (h : Str)
    (respH : Option (Except (PasswordWorkerError Config E) Str))
    (respV : Option (Except (PasswordWorkerError Config E) Bool))
    (hrespH : respH = none ∨ respH = some (Except.mapError .Hashing (hF pw cfg)))
    (hrespV : respV = none ∨ respV = some (Except.mapError .Hashing (vF pw h))) :
    (PasswordWorker.hashOp loopAlive respH pw cfg =
        .error (.ChannelSend (.Hash pw cfg true)) ↔ loopAlive = false) ∧
    (PasswordWorker.verifyOp loopAlive respV pw h =
        .error (.ChannelSend (.Verify pw h true)) ↔ loopAlive = false) := by
  constructor
  · constructor
    · intro hres
      cases loopAlive
      · rfl
      · exfalso
        rcases hrespH with h0 | h0 <;> subst h0
        · simp [PasswordWorker.hashOp] at hres
        · cases hh : hF pw cfg <;>
            simp [PasswordWorker.hashOp, hh, Except.mapError] at hres
    · intro hla
      subst hla
      rfl
  · constructor
    · intro hres
      cases loopAlive
      · rfl
      · exfalso
        rcases hrespV with h0 | h0 <;> subst h0
        · simp [PasswordWorker.verifyOp] at hres
        · cases hh : vF pw h <;>
            simp [PasswordWorker.verifyOp, hh, Except.mapError] at hres
    · intro hla
      subst hla
      rfl

/-- C7 witness: with the dispatch loop dead, concrete hash and verify calls
resolve with the `ChannelSend` (queue closed) error carrying the unsent
command. -/
theorem queue_closed_error_iff_loop_dead_witness :
    PasswordWorker.hashOp false
        (none : Option (Except (PasswordWorkerError Argon2idConfig ArgonError) Str))
        [104] Argon2idConfig.default =
      .error (.ChannelSend (.Hash [104] Argon2idConfig.default true)) ∧
    PasswordWorker.verifyOp false
        (none : Option (Except (PasswordWorkerError Argon2idConfig ArgonError) Bool))
        [104] (.plain [120]) =
      .error (.ChannelSend (.Verify [104] (.plain [120]) true)) :=
  ⟨(queue_closed_error_iff_loop_dead Argon2id.hash Argon2id.verify false [104]
      Argon2idConfig.default (.plain [120]) none none (Or.inl rfl)
      (Or.inl rfl)).1.mpr rfl,
   (queue_closed_error_iff_loop_dead Argon2id.hash Argon2id.verify false [104]
      Argon2idConfig.default (.plain [120]) none none (Or.inl rfl)
      (Or.inl rfl)).2.mpr rfl⟩

/-- C9: verifying any input that does not parse as a well-formed encoded
hash resolves with an algorithm error — wrapped by the dispatch loop as the
`Hashing` variant — rather than panicking (every function here is total),
for both the bcrypt and the argon2id implementations. -/
theorem malformed_hash_verify_errors (pw rng : Bytes) (s t : Str)
    (hb : s.parsesBcrypt = false) (ha : t.parsesArgon = false) :
    Bcrypt.verify pw s = .error .InvalidHash ∧
    Argon2id.verify pw t = .error .DecodingFail ∧
    step (fun d c => Bcrypt.hash d c rng) Bcrypt.verify (.Verify pw s true) =
      .verifyResult (.error (.Hashing BcryptError.InvalidHash)) ∧
    step Argon2id.hash Argon2id.verify (.Verify pw t true) =
      .verifyResult (.error (.Hashing ArgonError.DecodingFail)) := by
  have h1 : Bcrypt.verify pw s = .error .InvalidHash := by
    cases s with
    | bcryptEnc c sa d => simp [Str.parsesBcrypt] at hb
    | argonEnc p sa d => rfl
    | plain r => rfl
  have h2 : Argon2id.verify pw t = .error .DecodingFail := by
    cases t with
    | argonEnc p sa d => simp [Str.parsesArgon] at ha
    | bcryptEnc c sa d => rfl
    | plain r => rfl
  refine ⟨h1, h2, ?_, ?_⟩
  · simp [step, Except.mapError, h1]
  · simp [step, Except.mapError, h2]

/-- C9 witness: a concrete corrupted input (raw text, not an encoding) makes
both verifiers, and the dispatch loop around them, resolve with the
algorithm error. -/
theorem malformed_hash_verify_errors_witness :
    Bcrypt.verify [104] (.plain [36, 50, 98]) = .error .InvalidHash ∧
    Argon2id.verify [104] (.plain [36, 97]) = .error .DecodingFail ∧
    step (fun d c => Bcrypt.hash d c [7]) Bcrypt.verify
        (.Verify [104] (.plain [36, 50, 98]) true) =
      .verifyResult (.error (.Hashing BcryptError.InvalidHash)) ∧
    step Argon2id.hash Argon2id.verify (.Verify [104] (.plain [36, 97]) true) =
      .verifyResult (.error (.Hashing ArgonError.DecodingFail)) :=
  malformed_hash_verify_errors [104] [7] (.plain [36, 50, 98]) (.plain [36, 97])
    rfl rfl
